import Mathlib

/-!
Shallow embedding of the Humming bucket storage engine
(src/db/bucket.h, src/db/bucket.cpp, src/db/KV.h, src/util/io/common.h).

Conventions of the embedding:
* `size_t` values are `Nat`; wherever the C++ arithmetic can wrap modulo
  2^64 (unsigned subtraction, the interpolation product), the wrap is made
  explicit with `wsub` / `% W`.
* C++ reads of indeterminate memory (out-of-bounds `kvs[pos]`, array slots
  past the end of a C array, page-buffer bytes left stale because a `pread`
  failed or was never issued) are modeled as the junk value `0` / `(0, 0)`,
  except that a failed `PageIterator::load` leaves the previously loaded
  buffer in place, exactly as the C++ `pread` failure leaves `_page` untouched.
* File I/O is modeled functionally: a `DataFile` is the sorted batch the
  writer produced, its index pages are computed from it the way
  `Bucket::write` fills them, and `pread` of an index page succeeds (returns
  `kSectorSize` bytes) exactly when the page lies inside the index region.
* The unbounded C++ loops of `getHashOffsets` are given explicit fuel.
-/

namespace Humming

/-- 2^64: the modulus of `size_t` arithmetic. -/
def W : Nat := 2 ^ 64

/-- util::io::k_sector_size. -/
def kSectorSize : Nat := 4096

/-- IndexPage::k_hashes_num. -/
def kHashesNum : Nat := 8

/-- IndexPage::k_entries_num = (4096 - 2*8*8)/16 = 248. -/
def kEntriesNum : Nat := (kSectorSize - 2 * kHashesNum * 8) / 16

/-- size_t subtraction: `a - b` wrapping modulo 2^64. -/
def wsub (a b : Nat) : Nat := (a % W + (W - b % W)) % W

/-- db/KV.h: struct KV, with `_hash` precomputed by the constructor. -/
structure KV where
  k : String
  v : String
  hash : Nat
deriving DecidableEq, Repr

/-- The KV constructor `KV(k, v)`: `_hash = hasher(_k)`. -/
def KV.make (hasher : String → Nat) (k v : String) : KV := ⟨k, v, hasher k⟩

/-- Ordered insertion used by `sortRecs`. -/
def insertLe (x : KV) : List KV → List KV
  | [] => [x]
  | y :: ys => if x.hash ≤ y.hash then x :: y :: ys else y :: insertLe x ys

/-- The `std::sort` by `_hash` at the top of Bucket::write, modeled as a
(stable, kernel-evaluable) insertion sort; the C++ sort only guarantees a
hash-sorted permutation. -/
def sortRecs : List KV → List KV
  | [] => []
  | x :: xs => insertLe x (sortRecs xs)

/-- Serialized size of one record: `sizeof(size_t)*2 + k.size() + v.size()`. -/
def recSize (r : KV) : Nat := 8 * 2 + r.k.utf8ByteSize + r.v.utf8ByteSize

/-- The running `offset` of each record in the record region
(Bucket::write's `offsets` vector). -/
def offsetsOf : List KV → Nat → List Nat
  | [], _ => []
  | r :: rs, off => off :: offsetsOf rs (off + recSize r)

/-- A sealed data file: the sorted batch Bucket::write received.  Its byte
layout (record region, padding, index pages) is derived from this list. -/
structure DataFile where
  recs : List KV
deriving DecidableEq, Repr

/-- Bucket::write: sort the batch by hash and seal the file. -/
def Bucket.write (kvs : List KV) : DataFile := ⟨sortRecs kvs⟩

/-- Bucket::insert: write a new data file and append it to `_files`. -/
def Bucket.insert (b : List DataFile) (kvs : List KV) : List DataFile :=
  b ++ [Bucket.write kvs]

/-- DataFileMetadata::entriesCount. -/
def DataFile.entriesNum (f : DataFile) : Nat := f.recs.length

/-- The index entries `(hash, offset)` in file order (sorted by hash). -/
def DataFile.entries (f : DataFile) : List (Nat × Nat) :=
  (f.recs.map (·.hash)).zip (offsetsOf f.recs 0)

/-- Unpadded byte size of the record region. -/
def DataFile.recordRegionSize (f : DataFile) : Nat := (f.recs.map recSize).sum

/-- Bucket::write's sector padding of the record region. -/
def padTo (x : Nat) : Nat :=
  if x % kSectorSize = 0 then x else x + (kSectorSize - x % kSectorSize)

/-- Byte offset of the index region = `file_size - index_size` as computed by
Bucket::read. -/
def DataFile.indexOffset (f : DataFile) : Nat := padTo f.recordRegionSize

/-- `ceil(n / k_entries_num)`: number of index pages. -/
def pagesNumOf (n : Nat) : Nat := (n + kEntriesNum - 1) / kEntriesNum

/-- `kvs[i]._hash` with the out-of-bounds read modeled as junk 0. -/
def hashAt (hs : List Nat) (i : Nat) : Nat := hs.getD i 0

/-- The loop index `i` at which Bucket::write closes page `p`: the index of
the last record placed in that page. -/
def lastEntryIdx (n p : Nat) : Nat :=
  min (n - 1) (p * kEntriesNum + (kEntriesNum - 1))

/-- Bucket::write's `hashes_ahead = min(k_hashes_num, pages_ahead)`, where
`pages_ahead` is (mistakenly) the total page count of the file. -/
def postHashesAhead (n : Nat) : Nat := min kHashesNum (pagesNumOf n)

/-- The position `pos` from which `post_hashes[j]` of page `p` is read:
`pos` starts at `i + k_entries_num` and grows by `k_entries_num` per slot. -/
def postFencePos (n p j : Nat) : Nat := lastEntryIdx n p + kEntriesNum * (j + 1)

/-- The value Bucket::write stores in `post_hashes[j]` of page `p`
(slots it never writes keep indeterminate bytes, modeled as 0). -/
def postFence (hs : List Nat) (p j : Nat) : Nat :=
  if j < postHashesAhead hs.length then hashAt hs (postFencePos hs.length p j) else 0

/-- Bucket::write's `pages_preceding = (i + 1 - k_entries_num) / k_entries_num`,
with the size_t underflow of `i + 1 - k_entries_num` made explicit. -/
def pagesPreceding (n p : Nat) : Nat :=
  wsub (lastEntryIdx n p + 1) kEntriesNum / kEntriesNum

/-- The position from which `pre_hashes[j]` of page `p` is read:
`pos` starts at `i - 2*k_entries_num + 1` (size_t) and shrinks by
`k_entries_num` per slot. -/
def preFencePos (n p j : Nat) : Nat :=
  wsub (lastEntryIdx n p + 1) (kEntriesNum * (j + 2))

/-- The value Bucket::write stores in `pre_hashes[j]` of page `p`. -/
def preFence (hs : List Nat) (p j : Nat) : Nat :=
  if j < min kHashesNum (pagesPreceding hs.length p) then
    hashAt hs (preFencePos hs.length p j)
  else 0

/-- All `kvs` positions the writer reads to fill the `post_hashes` of page `p`
of an `n`-record file. -/
def postFencePositions (n p : Nat) : List Nat :=
  (List.range (postHashesAhead n)).map (postFencePos n p)

/-- All `kvs` positions the writer reads to fill the `pre_hashes` of page `p`. -/
def preFencePositions (n p : Nat) : List Nat :=
  (List.range (min kHashesNum (pagesPreceding n p))).map (preFencePos n p)

/-- The hash of the last entry actually stored in page `p` (what invariant 4
says `post_hashes` of page `p - j - 1` should hold). -/
def pageLastHash (hs : List Nat) (p : Nat) : Nat := hashAt hs (lastEntryIdx hs.length p)

/-- The hash of the first entry of page `p`. -/
def pageFirstHash (hs : List Nat) (p : Nat) : Nat := hashAt hs (p * kEntriesNum)

/-- The entry stored in slot `j` of page `p`.  Bucket::write reuses one
`IndexPage` object for every page, so slots of the (partial) last page that
receive no entry keep the previous page's entry; slots of a single partial
page are indeterminate (modeled 0). -/
def pageEntrySlot (es : List (Nat × Nat)) (p j : Nat) : Nat × Nat :=
  if p * kEntriesNum + j < es.length then es.getD (p * kEntriesNum + j) (0, 0)
  else if 0 < p then es.getD ((p - 1) * kEntriesNum + j) (0, 0)
  else (0, 0)

/-- db/bucket.h: struct IndexPage.  The fields are total functions; reads past
the C array bounds yield junk (modeled 0), as the fallthrough cases encode. -/
structure IndexPage where
  preHashes : Nat → Nat
  postHashes : Nat → Nat
  entries : Nat → Nat × Nat

/-- The index page `p` of a data file, as Bucket::write emits it. -/
def pageOf (f : DataFile) (p : Nat) : IndexPage :=
  let hs := f.recs.map (·.hash)
  let es := f.entries
  ⟨fun j => if j < kHashesNum then preFence hs p j else 0,
   fun j => if j < kHashesNum then postFence hs p j else 0,
   fun j => if j < kEntriesNum then pageEntrySlot es p j else (0, 0)⟩

/-- The mutable fields of struct PageIterator.  `buffer` is the page buffer
`_page` points into; a failed load leaves it unchanged. -/
structure ItState where
  buffer : IndexPage
  curr : Nat
  size : Nat
  indexOffset : Nat
  entriesNum : Nat
  pageId : Nat
  pagesNum : Nat

/-- An all-zero page: the model's value for a never-written buffer. -/
def zeroPage : IndexPage := ⟨fun _ => 0, fun _ => 0, fun _ => (0, 0)⟩

/-- A freshly constructed ReadContext's iterator (indeterminate buffer,
modeled zeroed). -/
def ItState.fresh : ItState := ⟨zeroPage, 0, 0, 0, 0, 0, 0⟩

/-- Bytes transferred by `_in.pread(_page, sizeof(IndexPage), index_offset +
page_id * sizeof(IndexPage))`: the full page iff the page lies inside the
file's index region (Bucket::read always passes the record-region size as
`index_offset`, so the page id alone determines the outcome). -/
def loadBytes (f : DataFile) (pid : Nat) : Nat :=
  if pid < pagesNumOf f.entriesNum then kSectorSize else 0

/-- PageIterator::load: returns `pread(...) != sizeof(IndexPage)`, i.e.
`true` on a short read, in which case the buffer keeps its old content. -/
def PageIterator.load (f : DataFile) (st : ItState) : ItState × Bool :=
  if loadBytes f st.pageId = kSectorSize then
    ({ st with buffer := pageOf f st.pageId }, false)
  else (st, true)

/-- PageIterator::setPageId: record the page id, recompute `_size` (with the
size_t underflow of `_entries_num - _page_id * k_entries_num` explicit), and
load. -/
def PageIterator.setPageId (f : DataFile) (st : ItState) (pid : Nat) : ItState × Bool :=
  let st1 := { st with
    pageId := pid,
    size := if (pid + 1) * kEntriesNum > st.entriesNum then
              wsub st.entriesNum (pid * kEntriesNum)
            else kEntriesNum }
  PageIterator.load f st1

/-- PageIterator::init. -/
def PageIterator.init (f : DataFile) (st : ItState) (pageForEntry idxOff n : Nat) :
    ItState × Bool :=
  let st1 := { st with
    indexOffset := idxOff,
    entriesNum := n,
    pagesNum := (n + kEntriesNum - 1) / kEntriesNum,
    curr := pageForEntry % kEntriesNum }
  PageIterator.setPageId f st1 (pageForEntry / kEntriesNum)

/-- PageIterator::current: `_page->_entries[_curr_entry_in_block]`. -/
def PageIterator.current (st : ItState) : Nat × Nat := st.buffer.entries st.curr

/-- PageIterator::dec: step back one entry; `true` on success
(`!load()` after a page change). -/
def PageIterator.dec (f : DataFile) (st : ItState) : ItState × Bool :=
  if 0 < st.curr then ({ st with curr := st.curr - 1 }, true)
  else if st.pageId = 0 then (st, false)
  else
    let st1 := { st with pageId := st.pageId - 1, size := kEntriesNum,
                         curr := kEntriesNum - 1 }
    let r := PageIterator.load f st1
    (r.1, !r.2)

/-- PageIterator::inc: step forward one entry; `true` on success.  Note the
C++ updates `_size` only when the new page overruns `_entries_num`. -/
def PageIterator.inc (f : DataFile) (st : ItState) : ItState × Bool :=
  if st.curr + 1 < st.size then ({ st with curr := st.curr + 1 }, true)
  else if st.pagesNum ≤ st.pageId + 1 then (st, false)
  else
    let st1 := { st with
      pageId := st.pageId + 1,
      size := if (st.pageId + 2) * kEntriesNum > st.entriesNum then
                wsub st.entriesNum ((st.pageId + 1) * kEntriesNum)
              else st.size,
      curr := 0 }
    let r := PageIterator.load f st1
    (r.1, !r.2)

/-- The `for (; p < H && post[p] < hash; ++p);` fence scans of getHashOffsets,
generalized over the continue condition.  Returns the final `p` together with
the list of slots actually read.  `left` is the number of slots still in
range (`H - i`). -/
def fscan (get : Nat → Nat) (cont : Nat → Bool) : Nat → Nat → Nat × List Nat
  | i, 0 => (i, [])
  | i, left + 1 =>
    if cont (get i) then
      let r := fscan get cont (i + 1) left
      (r.1, i :: r.2)
    else (i, [i])

/-- The forward fence-skip `while` loop of getHashOffsets (bucket.cpp lines
94-108).  Result: (returned-early?, final iterator state, `post_hashes` slots
read as (page_id, slot) pairs). -/
def ltSkip (f : DataFile) (t : Nat) :
    Nat → ItState → List (Nat × Nat) → Bool × ItState × List (Nat × Nat)
  | 0, st, cs => (false, st, cs)
  | fuel + 1, st, cs =>
    if st.pageId + 1 < st.pagesNum ∧ (st.buffer.entries (wsub st.size 1)).1 < t then
      let H := min (st.pagesNum - st.pageId) kHashesNum
      let r := fscan st.buffer.postHashes (fun v => decide (v < t)) 0 H
      let cs1 := cs ++ r.2.map (fun j => (st.pageId, j))
      if r.1 = st.pageId then (true, st, cs1)
      else
        ltSkip f t fuel
          { (PageIterator.setPageId f st (st.pageId + r.1 + 1)).1 with curr := 0 } cs1
    else (false, st, cs)

/-- The `do { ... } while (block.inc());` sweep after the forward skip
(bucket.cpp lines 109-116). -/
def doScan (f : DataFile) (t : Nat) : Nat → ItState → List Nat → List Nat × ItState
  | 0, st, acc => (acc, st)
  | fuel + 1, st, acc =>
    let e := PageIterator.current st
    let acc1 := if e.1 = t then acc ++ [e.2] else acc
    if t < e.1 then (acc1, st)
    else
      let r := PageIterator.inc f st
      if r.2 then doScan f t fuel r.1 acc1 else (acc1, r.1)

/-- The backward fence-skip `while` loop (bucket.cpp lines 118-130); the
consulted `pre_hashes` slots are recorded as (page_id, slot) pairs. -/
def gtSkip (f : DataFile) (t : Nat) :
    Nat → ItState → List (Nat × Nat) → Bool × ItState × List (Nat × Nat)
  | 0, st, cs => (false, st, cs)
  | fuel + 1, st, cs =>
    if 0 < st.pageId ∧ t < (st.buffer.entries 0).1 then
      let P := min st.pageId kHashesNum
      let r := fscan st.buffer.preHashes (fun v => decide (t < v)) 0 P
      let cs1 := cs ++ r.2.map (fun j => (st.pageId, j))
      if r.1 = st.pageId then (true, st, cs1)
      else gtSkip f t fuel (PageIterator.setPageId f st (wsub st.pageId (r.1 + 1))).1 cs1
    else (false, st, cs)

/-- The in-page binary search of the greater-than branch (lines 132-141).
`bot`/`mid`/`top` are `unsigned int`; the caller truncates the initial `top`. -/
def binSearch (ent : Nat → Nat × Nat) (t : Nat) (bot top : Nat) : Nat :=
  if 1 < top then
    let mid := top / 2
    if (ent (bot + mid)).1 ≤ t then binSearch ent t (bot + mid) (top - mid)
    else binSearch ent t bot (top - mid)
  else bot
termination_by top
decreasing_by
  · exact Nat.sub_lt (by omega) (Nat.div_pos (by omega) (by omega))
  · exact Nat.sub_lt (by omega) (Nat.div_pos (by omega) (by omega))

/-- `while (bot + 1 < _size && entries[bot + 1]._hash == hash) ++bot;`
(lines 144-145). -/
def rightEq (ent : Nat → Nat × Nat) (t sz bot : Nat) : Nat :=
  if bot + 1 < sz ∧ (ent (bot + 1)).1 = t then rightEq ent t sz (bot + 1) else bot
termination_by sz - bot
decreasing_by omega

/-- The leftward collection loop of the greater-than branch (lines 146-158);
note `block.load()`'s status is discarded there. -/
def leftCollect (f : DataFile) (t : Nat) :
    Nat → ItState → Nat → List Nat → List Nat × ItState
  | 0, st, _, acc => (acc, st)
  | fuel + 1, st, bot, acc =>
    let e := st.buffer.entries bot
    if e.1 = t then
      let acc1 := acc ++ [e.2]
      if 0 < bot then leftCollect f t fuel st (bot - 1) acc1
      else if st.pageId = 0 then (acc1, st)
      else
        let st1 := { st with pageId := st.pageId - 1, size := kEntriesNum }
        let st2 := (PageIterator.load f st1).1
        leftCollect f t fuel st2 (kEntriesNum - 1) acc1
    else (acc, st)

/-- `while (block.dec() && block.current()._hash == hash)` (line 86). -/
def decWhile (f : DataFile) (t : Nat) : Nat → ItState → List Nat → ItState × List Nat
  | 0, st, acc => (st, acc)
  | fuel + 1, st, acc =>
    let r := PageIterator.dec f st
    if r.2 = true ∧ (PageIterator.current r.1).1 = t then
      decWhile f t fuel r.1 (acc ++ [(PageIterator.current r.1).2])
    else (r.1, acc)

/-- `while (block.inc() && block.current()._hash == hash)` (line 90). -/
def incWhile (f : DataFile) (t : Nat) : Nat → ItState → List Nat → ItState × List Nat
  | 0, st, acc => (st, acc)
  | fuel + 1, st, acc =>
    let r := PageIterator.inc f st
    if r.2 = true ∧ (PageIterator.current r.1).1 = t then
      incWhile f t fuel r.1 (acc ++ [(PageIterator.current r.1).2])
    else (r.1, acc)

/-- The interpolated landing entry of getHashOffsets:
`(hash >> 32) * size / (size_t(1) << 32)`, with the 64-bit wrap of the
product explicit. -/
def interpEntry (t n : Nat) : Nat := (t >>> 32) * n % W / 2 ^ 32

/-- The result of one getHashOffsets call: the collected offsets
(`context._result`), the fence slots it read, and the iterator state it
leaves behind. -/
structure SearchOut where
  offsets : List Nat
  postReads : List (Nat × Nat)
  preReads : List (Nat × Nat)
  stateOut : ItState

/-- The body of getHashOffsets after the initial
`block.init(curr_entry, offset, size)`: dispatch on the landing hash. -/
def mainSearch (f : DataFile) (n t off : Nat) (st : ItState) (fuel : Nat) : SearchOut :=
  let ch := (PageIterator.current st).1
  if ch = t then
    let acc0 := [(PageIterator.current st).2]
    let r1 := decWhile f t fuel st acc0
    let st2 := (PageIterator.init f r1.1 (interpEntry t n) off n).1
    let r2 := incWhile f t fuel st2 r1.2
    ⟨r2.2, [], [], r2.1⟩
  else if ch < t then
    let r := ltSkip f t fuel st []
    if r.1 then ⟨[], r.2.2, [], r.2.1⟩
    else
      let d := doScan f t fuel r.2.1 []
      ⟨d.1, r.2.2, [], d.2⟩
  else
    let r := gtSkip f t fuel st []
    if r.1 then ⟨[], [], r.2.2, r.2.1⟩
    else
      let st1 := r.2.1
      let bot := binSearch st1.buffer.entries t 0 (st1.size % 2 ^ 32)
      if (st1.buffer.entries bot).1 ≠ t then ⟨[], [], r.2.2, st1⟩
      else
        let bot1 := rightEq st1.buffer.entries t st1.size bot
        let l := leftCollect f t fuel st1 bot1 []
        ⟨l.1, [], r.2.2, l.2⟩

/-- getHashOffsets (bucket.cpp lines 75-160).  The boolean returned by the
initial `block.init(...)` is discarded, as in the source (line 80). -/
def getHashOffsets (f : DataFile) (n t off : Nat) (st0 : ItState) (fuel : Nat) :
    SearchOut :=
  mainSearch f n t off (PageIterator.init f st0 (interpEntry t n) off n).1 fuel

/-- Decode the record whose serialization starts at byte `off` of the record
region.  A candidate offset that is not a record boundary would make the C++
decode arbitrary file bytes; the model returns `none` (such offsets never
arise in the runs proved about below). -/
def recordAtOffset (f : DataFile) (off : Nat) : Option (String × String) :=
  match ((offsetsOf f.recs 0).zip f.recs).find? (fun pr => pr.1 == off) with
  | some pr => some (pr.2.k, pr.2.v)
  | none => none

/-- The candidate loop of Bucket::read (lines 173-181): read the key at each
offset and stop at the first exact key match, emitting its value. -/
def candidateScan (f : DataFile) (k : String) : List Nat → Option (String × String)
  | [] => none
  | off :: rest =>
    match recordAtOffset f off with
    | some kv => if kv.1 = k then some kv else candidateScan f k rest
    | none => candidateScan f k rest

/-- The per-file loop of Bucket::read; the ReadContext (iterator state) is
threaded through the files in `_files` order. -/
def readGo (hasher : String → Nat) (k : String) :
    List DataFile → ItState → Nat → List (String × String) → List (String × String)
  | [], _, _, acc => acc
  | f :: fs, st, fuel, acc =>
    let out := getHashOffsets f f.entriesNum (hasher k) f.indexOffset st fuel
    let acc1 := match candidateScan f k out.offsets with
      | some kv => acc ++ [kv]
      | none => acc
    readGo hasher k fs out.stateOut fuel acc1

/-- Bucket::read (bucket.cpp lines 162-185). -/
def Bucket.read (hasher : String → Nat) (b : List DataFile) (k : String)
    (st : ItState) (fuel : Nat) : List (String × String) :=
  readGo hasher k b st fuel []

/-! ### Concrete batches used to settle the claims

All multi-page scenarios need at least 249 records because
`k_entries_num = 248` is fixed by the on-disk format. -/

/-- Hash function for the round-trip scenario: key "t" hashes to 400,
every other key to 1 (hash collisions between distinct keys are legal). -/
def c1Hasher : String → Nat := fun s => if s = "t" then 400 else 1

/-- 496 records: 495 with hash 1 and one record ("t", "vt") with hash 400,
which lands at sorted position 495, the last entry of index page 1. -/
def c1Batch : List KV :=
  List.replicate 495 (KV.make c1Hasher "k" "x") ++ [KV.make c1Hasher "t" "vt"]

/-- A bucket holding exactly the file written from `c1Batch`. -/
def c1Bucket : List DataFile := Bucket.insert [] c1Batch

/-- Hash function for the per-file-result scenario. -/
def c2Hasher : String → Nat := fun s => if s = "q" then 600 else 2

/-- First batch: 495 records with hash 2 plus ("q", "w1") with hash 600. -/
def c2Batch1 : List KV :=
  List.replicate 495 (KV.make c2Hasher "b" "y") ++ [KV.make c2Hasher "q" "w1"]

/-- Second batch: the single record ("q", "w2"). -/
def c2Batch2 : List KV := [KV.make c2Hasher "q" "w2"]

/-- A bucket with two files, both containing key "q". -/
def c2Bucket : List DataFile := Bucket.insert (Bucket.insert [] c2Batch1) c2Batch2

/-- 249 records with hashes 1..249: one full page plus a one-entry page. -/
def f249 : DataFile :=
  Bucket.write ((List.range 249).map (fun i => ⟨"r", "x", i + 1⟩))

/-- A single-record file. -/
def oneRecFile : DataFile := Bucket.write [⟨"a", "b", 5⟩]

/-- 496 records, hashes all 1 except one 50: the landing page's
`post_hashes[0]` equals the target 50, so the smallest qualifying fence slot
is `p = 0` — which collides with `page_id = 0`. -/
def c5File : DataFile :=
  Bucket.write (List.replicate 495 (⟨"a", "z", 1⟩ : KV) ++ [⟨"b", "z", 50⟩])

/-- The iterator state after getHashOffsets' initial `init` for target 50 on
`c5File`. -/
def c5St : ItState :=
  (PageIterator.init c5File ItState.fresh (interpEntry 50 496) c5File.indexOffset 496).1

/-- 496 records with hashes 11/12; target 20 exceeds every hash, so no fence
slot qualifies. -/
def c5bFile : DataFile :=
  Bucket.write (List.replicate 495 (⟨"a", "z", 11⟩ : KV) ++ [⟨"b", "z", 12⟩])

/-- The post-`init` iterator state for target 20 on `c5bFile`. -/
def c5bSt : ItState :=
  (PageIterator.init c5bFile ItState.fresh (interpEntry 20 496) c5bFile.indexOffset 496).1

/-- 496 records with hashes 5/6, probed below with target 9 (larger than
every stored hash). -/
def c6File : DataFile :=
  Bucket.write (List.replicate 495 (⟨"c", "z", 5⟩ : KV) ++ [⟨"d", "z", 6⟩])

/-- 496 records with hashes 3/900; the hash 900 occurs in the index at
sorted position 495 (page 1). -/
def c7File : DataFile :=
  Bucket.write (List.replicate 495 (⟨"m", "x", 3⟩ : KV) ++ [⟨"z", "y", 900⟩])

/-- A residual page buffer left over from earlier lookups (or uninitialized
stack memory): its slot 0 holds the entry (hash 7, offset 42). -/
def stalePage : IndexPage :=
  ⟨fun _ => 0, fun _ => 0, fun j => if j = 0 then (7, 42) else (0, 0)⟩

/-- A ReadContext whose iterator buffer holds `stalePage`. -/
def staleState : ItState := ⟨stalePage, 0, 0, 0, 0, 0, 0⟩

/-- The file written from an empty batch: zero entries, zero index pages. -/
def emptyFile : DataFile := Bucket.write []

/-! ### Claim theorems -/

set_option maxRecDepth 2000000

/-- C1: the round-trip property fails on the code.  The batch `c1Batch`
contains the record ("t", "vt"), yet for every fuel bound `Bucket::read` of
key "t" against the bucket holding the file written from that batch returns
no result: the forward fence skip finds its qualifying slot at `p = 0`,
the guard `if (p == block._page_id) return;` fires because the landing page
id is also 0, and the lookup aborts before ever visiting page 1. -/
theorem c1_read_misses_inserted_record :
    KV.make c1Hasher "t" "vt" ∈ c1Batch ∧
      ∀ fuel, Bucket.read c1Hasher c1Bucket "t" ItState.fresh (fuel + 1) = [] :=
  ⟨by decide, fun _ => rfl⟩

/-- C2: `Bucket::read` does not return one result per file containing the
key.  Both files of `c2Bucket` contain key "q", but the lookup returns only
the second file's record: the first (two-page) file's candidate search
aborts in the forward skip exactly as in C1, producing zero results for a
file that contains the key. -/
theorem c2_read_loses_a_containing_file :
    KV.make c2Hasher "q" "w1" ∈ c2Batch1 ∧ KV.make c2Hasher "q" "w2" ∈ c2Batch2 ∧
      (∀ fuel,
        Bucket.read c2Hasher (Bucket.insert [] c2Batch1) "q" ItState.fresh (fuel + 1) = []) ∧
      Bucket.read c2Hasher c2Bucket "q" ItState.fresh 9 = [("q", "w2")] :=
  ⟨by decide, by decide, fun _ => rfl, rfl⟩

/-- C3: the fence invariant fails on the file written from 249 records with
hashes 1..249.  Page 1 exists, so `post_hashes[0]` of page 0 should hold
page 1's last hash 249, but the writer reads `kvs[495]` (out of bounds,
modeled as junk 0).  Page 0 exists, so `pre_hashes[0]` of page 1 should hold
page 0's first hash 1, but the writer computes `pages_preceding = 0` for the
partial last page and leaves the slot unwritten. -/
theorem c3_fence_values_wrong :
    pagesNumOf f249.entriesNum = 2 ∧
      (pageOf f249 0).postHashes 0 = 0 ∧
      pageLastHash (f249.recs.map (·.hash)) 1 = 249 ∧
      (pageOf f249 1).preHashes 0 = 0 ∧
      pageFirstHash (f249.recs.map (·.hash)) 0 = 1 := by
  refine ⟨by decide, by decide, by decide, by decide, by decide⟩

/-- C4: the writer's fence-source positions escape `[0, n)` already for a
single-record batch: the lone `post_hashes` slot is read from `kvs[248]`,
and the eight `pre_hashes` slots are read from positions starting at
`2^64 - 495` (the size_t expression `i - 2*k_entries_num + 1` underflows). -/
theorem c4_fence_positions_out_of_range :
    postFencePositions oneRecFile.entriesNum 0 = [248] ∧ ¬248 < oneRecFile.entriesNum ∧
      W - 495 ∈ preFencePositions oneRecFile.entriesNum 0 ∧
      ¬W - 495 < oneRecFile.entriesNum := by
  refine ⟨by decide, by decide, by decide, by decide⟩

/-- C7: getHashOffsets is not complete.  Hash 900 occurs in `c7File`'s index
(at sorted position 495, on page 1), but for every fuel bound the search
returns no offsets: the qualifying fence slot is `p = 0`, which collides
with the landing page id 0, and `if (p == block._page_id) return;` aborts
the search. -/
theorem c7_search_misses_present_hash :
    (900 ∈ c7File.entries.map Prod.fst) ∧
      ∀ fuel,
        (getHashOffsets c7File c7File.entriesNum 900 c7File.indexOffset
            ItState.fresh (fuel + 1)).offsets = [] :=
  ⟨by decide, fun _ => rfl⟩

/-- C8: on a zero-entry file getHashOffsets can return a non-empty result.
With `entries_num = 0` the page load is a short read; its failure status is
discarded, the stale buffer entry (hash 7, offset 42) is compared against
target 7, matches, and its junk offset is emitted. -/
theorem c8_empty_file_emits_stale_offset :
    emptyFile.entriesNum = 0 ∧
      (getHashOffsets emptyFile 0 7 0 staleState 5).offsets = [42] :=
  ⟨rfl, rfl⟩

/-- C10 counterexample: the claim's second half ("for n >= 2^32 the bound is
not guaranteed") is false: no hash/size pair with `n >= 2^32` makes the
interpolated landing entry reach `n`, because the wrapped product divided by
2^32 is always below 2^32. -/
theorem c10_no_unbounded_landing :
    (∃ h n, h < W ∧ 2 ^ 32 ≤ n ∧ n < W ∧ n ≤ interpEntry h n) = False := by
  apply eq_false
  rintro ⟨h, n, -, hn, -, hle⟩
  have h1 : (h >>> 32) * n % W < W := Nat.mod_lt _ (by norm_num [W])
  have h2 : interpEntry h n < 2 ^ 32 := by
    unfold interpEntry
    apply Nat.div_lt_of_lt_mul
    calc (h >>> 32) * n % W < W := h1
      _ = 2 ^ 32 * 2 ^ 32 := by norm_num [W]
  omega

/-- C10 (amended): for every 64-bit hash and every nonzero entry count
(below 2^64), the interpolated landing entry is strictly below the entry
count — also when the 64-bit multiplication wraps, since the wrapped product
divided by 2^32 stays below 2^32 <= n. -/
theorem c10_landing_entry_in_range : ∀ h n, h < W → 0 < n → interpEntry h n < n := by
  intro h n hW hn
  rcases lt_or_le n (2 ^ 32) with hsmall | hbig
  · have hsh : h >>> 32 < 2 ^ 32 := by
      rw [Nat.shiftRight_eq_div_pow]
      apply Nat.div_lt_of_lt_mul
      calc h < W := hW
        _ = 2 ^ 32 * 2 ^ 32 := by norm_num [W]
    have hprod : (h >>> 32) * n < W := by
      calc (h >>> 32) * n < 2 ^ 32 * 2 ^ 32 := Nat.mul_lt_mul'' hsh hsmall
        _ = W := by norm_num [W]
    unfold interpEntry
    rw [Nat.mod_eq_of_lt hprod]
    apply Nat.div_lt_of_lt_mul
    exact Nat.mul_lt_mul_of_lt_of_le hsh (le_refl n) hn
  · have h1 : (h >>> 32) * n % W < W := Nat.mod_lt _ (by norm_num [W])
    have h2 : interpEntry h n < 2 ^ 32 := by
      unfold interpEntry
      apply Nat.div_lt_of_lt_mul
      calc (h >>> 32) * n % W < W := h1
        _ = 2 ^ 32 * 2 ^ 32 := by norm_num [W]
    omega

/-- C10 witness: the in-range theorem applied at a concrete hash and size. -/
theorem c10_landing_entry_in_range_witness : interpEntry (5 * 2 ^ 32) 3 < 3 :=
  c10_landing_entry_in_range (5 * 2 ^ 32) 3 (by norm_num [W]) (by norm_num)

/-- C5 counterexample: two concrete forward-skip iterations contradict the
claim.  On `c5File` with target 50 the smallest qualifying slot is `p = 0`
(`post_hashes[0] = 50 >= 50`), so the claim demands an advance by `p + 1 = 1`
page; instead the iteration returns early because `p` equals the landing
page id 0.  On `c5bFile` with target 20 no slot of `H = 2` qualifies, so the
claim demands `set_page_id(page_id + 2)`; instead the iterator lands on page
`0 + 2 + 1 = 3`. -/
theorem c5_skip_step_deviates :
    (c5St.pageId + 1 < c5St.pagesNum ∧ (c5St.buffer.entries (wsub c5St.size 1)).1 < 50) ∧
      50 ≤ c5St.buffer.postHashes 0 ∧
      c5St.pageId = 0 ∧
      (ltSkip c5File 50 1 c5St []).1 = true ∧
      (ltSkip c5File 50 1 c5St []).2.1.pageId = 0 ∧
      (c5bSt.pageId + 1 < c5bSt.pagesNum ∧ (c5bSt.buffer.entries (wsub c5bSt.size 1)).1 < 20) ∧
      c5bSt.buffer.postHashes 0 < 20 ∧ c5bSt.buffer.postHashes 1 < 20 ∧
      min (c5bSt.pagesNum - c5bSt.pageId) kHashesNum = 2 ∧
      (ltSkip c5bFile 20 1 c5bSt []).1 = false ∧
      (ltSkip c5bFile 20 1 c5bSt []).2.1.pageId = 3 := by
  refine ⟨by decide, by decide, by decide, by decide, by decide, by decide,
    by decide, by decide, by decide, by decide, by decide⟩

/-- PageIterator::load returns `true` exactly on a short pread. -/
theorem load_snd_iff : ∀ f st,
    (PageIterator.load f st).2 = true ↔ loadBytes f st.pageId ≠ kSectorSize := by
  intro f st
  unfold PageIterator.load
  split <;> simp_all

/-- PageIterator::setPageId propagates load's failure flag unchanged. -/
theorem setPageId_snd_iff : ∀ f st pid,
    (PageIterator.setPageId f st pid).2 = true ↔ loadBytes f pid ≠ kSectorSize := by
  intro f st pid
  unfold PageIterator.setPageId
  rw [load_snd_iff]

/-- PageIterator::init propagates setPageId's failure flag unchanged. -/
theorem init_snd_iff : ∀ f st pe off n,
    (PageIterator.init f st pe off n).2 = true ↔
      loadBytes f (pe / kEntriesNum) ≠ kSectorSize := by
  intro f st pe off n
  unfold PageIterator.init
  rw [setPageId_snd_iff]

/-- PageIterator::inc returns `true` exactly on a successful step: either a
move within the page, or a page change whose load read a full page. -/
theorem inc_snd_iff : ∀ f st, (PageIterator.inc f st).2 = true ↔
    (st.curr + 1 < st.size ∨
      (st.size ≤ st.curr + 1 ∧ st.pageId + 1 < st.pagesNum ∧
        loadBytes f (st.pageId + 1) = kSectorSize)) := by
  intro f st
  unfold PageIterator.inc PageIterator.load
  dsimp only
  split
  · simp_all
  · split
    · simp_all
    · split <;> simp_all

/-- PageIterator::dec returns `true` exactly on a successful step. -/
theorem dec_snd_iff : ∀ f st, (PageIterator.dec f st).2 = true ↔
    (0 < st.curr ∨
      (st.curr = 0 ∧ st.pageId ≠ 0 ∧ loadBytes f (st.pageId - 1) = kSectorSize)) := by
  intro f st
  unfold PageIterator.dec PageIterator.load
  dsimp only
  split
  · simp_all
  · split
    · simp_all
    · split <;> simp_all

/-- C9: `init`/`setPageId` return true exactly when the page pread
transferred a byte count different from `sizeof(IndexPage)` (true = load
failure), the opposite of `inc`/`dec`, which return true on a successful
step; and getHashOffsets factors through only the state component of
`init`'s result — the boolean it returns is never inspected. -/
theorem c9_return_value_conventions :
    (∀ f st pid,
        (PageIterator.setPageId f st pid).2 = true ↔ loadBytes f pid ≠ kSectorSize) ∧
      (∀ f st pe off n,
        (PageIterator.init f st pe off n).2 = true ↔
          loadBytes f (pe / kEntriesNum) ≠ kSectorSize) ∧
      (∀ f st, (PageIterator.inc f st).2 = true ↔
        (st.curr + 1 < st.size ∨
          (st.size ≤ st.curr + 1 ∧ st.pageId + 1 < st.pagesNum ∧
            loadBytes f (st.pageId + 1) = kSectorSize))) ∧
      (∀ f st, (PageIterator.dec f st).2 = true ↔
        (0 < st.curr ∨
          (st.curr = 0 ∧ st.pageId ≠ 0 ∧ loadBytes f (st.pageId - 1) = kSectorSize))) ∧
      (∀ f n t off st0 fuel,
        getHashOffsets f n t off st0 fuel =
          mainSearch f n t off (PageIterator.init f st0 (interpEntry t n) off n).1 fuel) :=
  ⟨setPageId_snd_iff, init_snd_iff, inc_snd_iff, dec_snd_iff, fun _ _ _ _ _ _ => rfl⟩

/-- C6 counterexample: probing `c6File` (two index pages) with target 9
makes the forward skip read `post_hashes[1]` of page 0, a fence slot
referring to page 0 + 1 + 1 = 2 — beyond the last page (index 1) of the
file, contradicting `page_id + p + 1 <= pages_num - 1`. -/
theorem c6_fence_read_beyond_last_page :
    ((0, 1) : Nat × Nat) ∈
        (getHashOffsets c6File c6File.entriesNum 9 c6File.indexOffset
          ItState.fresh 2).postReads ∧
      pagesNumOf c6File.entriesNum = 2 ∧
      ¬0 + 1 + 1 ≤ pagesNumOf c6File.entriesNum - 1 := by
  refine ⟨by decide, by decide, by decide⟩

/-- The fence scan stops no later than the slot bound. -/
theorem fscan_fst_le : ∀ (get : Nat → Nat) (cont : Nat → Bool) (left i : Nat),
    (fscan get cont i left).1 ≤ i + left := by
  intro get cont left
  induction left with
  | zero => intro i; simp [fscan]
  | succ m ih =>
    intro i
    simp only [fscan]
    split
    · have := ih (i + 1)
      omega
    · omega

/-- Every slot strictly before the fence scan's stop satisfied the continue
condition. -/
theorem fscan_cont_before : ∀ (get : Nat → Nat) (cont : Nat → Bool) (left i q : Nat),
    i ≤ q → q < (fscan get cont i left).1 → cont (get q) = true := by
  intro get cont left
  induction left with
  | zero => intro i q hiq hq; simp [fscan] at hq; omega
  | succ m ih =>
    intro i q hiq hq
    simp only [fscan] at hq
    split at hq
    · rcases Nat.eq_or_lt_of_le hiq with rfl | hlt
      · assumption
      · exact ih (i + 1) q hlt hq
    · omega

/-- If the fence scan stopped before the bound, the stopping slot failed the
continue condition. -/
theorem fscan_stop : ∀ (get : Nat → Nat) (cont : Nat → Bool) (left i : Nat),
    (fscan get cont i left).1 < i + left →
      cont (get ((fscan get cont i left).1)) = false := by
  intro get cont left
  induction left with
  | zero => intro i h; simp [fscan] at h
  | succ m ih =>
    intro i h
    cases hc : cont (get i) with
    | true =>
      simp only [fscan, hc, if_true] at h ⊢
      exact ih (i + 1) (by omega)
    | false =>
      simp only [fscan, hc, if_false] at h ⊢
      exact hc

/-- Every fence slot the scan consults lies below the slot bound. -/
theorem fscan_mem_lt : ∀ (get : Nat → Nat) (cont : Nat → Bool) (left i q : Nat),
    q ∈ (fscan get cont i left).2 → q < i + left := by
  intro get cont left
  induction left with
  | zero => intro i q hq; simp [fscan] at hq
  | succ m ih =>
    intro i q hq
    simp only [fscan] at hq
    split at hq
    · simp at hq
      rcases hq with rfl | hq
      · omega
      · have := ih (i + 1) q hq
        omega
    · simp at hq
      omega

/-- C5 (amended): characterization of one iteration of the forward fence
skip.  With `H = min(pages_num - page_id, k_hashes_num)`, the inner `for`
loop computes the smallest `p` in `[0, H)` with `post_hashes[p] >= target`
(taking `p = H` when no slot qualifies, conjuncts 1-3); then, if `p` equals
the current `page_id` the search returns immediately with no offsets from
this branch, and otherwise the iterator advances by `p + 1` pages — i.e. by
`H + 1`, not `H`, when no slot qualifies (conjuncts 4-5). -/
theorem c5_forward_skip_characterization :
    ∀ f t fuel st cs,
      st.pageId + 1 < st.pagesNum →
      (st.buffer.entries (wsub st.size 1)).1 < t →
      (fscan st.buffer.postHashes (fun v => decide (v < t)) 0
          (min (st.pagesNum - st.pageId) kHashesNum)).1 ≤
        min (st.pagesNum - st.pageId) kHashesNum ∧
      (∀ q, q < (fscan st.buffer.postHashes (fun v => decide (v < t)) 0
          (min (st.pagesNum - st.pageId) kHashesNum)).1 →
        st.buffer.postHashes q < t) ∧
      ((fscan st.buffer.postHashes (fun v => decide (v < t)) 0
          (min (st.pagesNum - st.pageId) kHashesNum)).1 <
          min (st.pagesNum - st.pageId) kHashesNum →
        t ≤ st.buffer.postHashes (fscan st.buffer.postHashes (fun v => decide (v < t)) 0
          (min (st.pagesNum - st.pageId) kHashesNum)).1) ∧
      ((fscan st.buffer.postHashes (fun v => decide (v < t)) 0
          (min (st.pagesNum - st.pageId) kHashesNum)).1 = st.pageId →
        ltSkip f t (fuel + 1) st cs =
          (true, st,
            cs ++ ((fscan st.buffer.postHashes (fun v => decide (v < t)) 0
              (min (st.pagesNum - st.pageId) kHashesNum)).2.map fun j => (st.pageId, j)))) ∧
      ((fscan st.buffer.postHashes (fun v => decide (v < t)) 0
          (min (st.pagesNum - st.pageId) kHashesNum)).1 ≠ st.pageId →
        ltSkip f t (fuel + 1) st cs =
          ltSkip f t fuel
            { (PageIterator.setPageId f st
                (st.pageId + (fscan st.buffer.postHashes (fun v => decide (v < t)) 0
                  (min (st.pagesNum - st.pageId) kHashesNum)).1 + 1)).1 with curr := 0 }
            (cs ++ ((fscan st.buffer.postHashes (fun v => decide (v < t)) 0
              (min (st.pagesNum - st.pageId) kHashesNum)).2.map fun j => (st.pageId, j)))) := by
  intro f t fuel st cs h1 h2
  refine ⟨?_, ?_, ?_, ?_, ?_⟩
  · have h := fscan_fst_le st.buffer.postHashes (fun v => decide (v < t))
      (min (st.pagesNum - st.pageId) kHashesNum) 0
    omega
  · intro q hq
    have := fscan_cont_before st.buffer.postHashes (fun v => decide (v < t)) _ 0 q
      (Nat.zero_le _) hq
    simpa using this
  · intro hlt
    have := fscan_stop st.buffer.postHashes (fun v => decide (v < t))
      (min (st.pagesNum - st.pageId) kHashesNum) 0 (by omega)
    simpa using this
  · intro hP
    simp only [ltSkip]
    rw [if_pos ⟨h1, h2⟩, if_pos hP]
  · intro hP
    simp only [ltSkip]
    rw [if_pos ⟨h1, h2⟩, if_neg hP]

/-- C5 witness: the characterization applied to the concrete landing state
of `c5File` with target 50, where the scan stops at slot 0 = page id 0 and
the iteration returns early having consulted only slot 0. -/
theorem c5_forward_skip_characterization_witness :
    ltSkip c5File 50 1 c5St [] = (true, c5St, [(0, 0)]) :=
  (c5_forward_skip_characterization c5File 50 0 c5St []
    (by decide) (by decide)).2.2.2.1 (by decide)

/-- Loading a page never changes the iterator's page count. -/
theorem load_fst_pagesNum : ∀ f st, (PageIterator.load f st).1.pagesNum = st.pagesNum := by
  intro f st
  unfold PageIterator.load
  split <;> rfl

/-- setPageId never changes the iterator's page count. -/
theorem setPageId_fst_pagesNum : ∀ f st pid,
    (PageIterator.setPageId f st pid).1.pagesNum = st.pagesNum := by
  intro f st pid
  unfold PageIterator.setPageId
  rw [load_fst_pagesNum]

/-- init sets the iterator's page count to `ceil(n / k_entries_num)`. -/
theorem init_fst_pagesNum : ∀ f st pe off n,
    (PageIterator.init f st pe off n).1.pagesNum = pagesNumOf n := by
  intro f st pe off n
  unfold PageIterator.init
  rw [setPageId_fst_pagesNum]
  rfl

/-- Every `post_hashes` slot the forward skip consults refers to a page of
index at most `pages_num` (one past the last page is reachable). -/
theorem ltSkip_postReads_bound : ∀ (f : DataFile) (t N fuel : Nat) (st : ItState)
    (cs : List (Nat × Nat)), st.pagesNum = N →
    (∀ pr ∈ cs, pr.1 + pr.2 + 1 ≤ N) →
    ∀ pr ∈ (ltSkip f t fuel st cs).2.2, pr.1 + pr.2 + 1 ≤ N := by
  intro f t N fuel
  induction fuel with
  | zero =>
    intro st cs hN hcs pr hpr
    simp only [ltSkip] at hpr
    exact hcs pr hpr
  | succ m ih =>
    intro st cs hN hcs pr hpr
    simp only [ltSkip] at hpr
    split at hpr
    · rename_i hc
      split at hpr
      · rename_i hP
        simp only at hpr
        rcases List.mem_append.mp hpr with h | h
        · exact hcs pr h
        · rcases List.mem_map.mp h with ⟨j, hj, rfl⟩
          have hjlt := fscan_mem_lt st.buffer.postHashes (fun v => decide (v < t)) _ 0 j hj
          omega
      · refine ih _ _ ?_ ?_ pr hpr
        · show (PageIterator.setPageId f st _).1.pagesNum = N
          rw [setPageId_fst_pagesNum]
          exact hN
        · intro q hq
          rcases List.mem_append.mp hq with h | h
          · exact hcs q h
          · rcases List.mem_map.mp h with ⟨j, hj, rfl⟩
            have hjlt := fscan_mem_lt st.buffer.postHashes (fun v => decide (v < t)) _ 0 j hj
            omega
    · exact hcs pr hpr

/-- Every `pre_hashes` slot the backward skip consults refers to a
nonnegative page index: `slot + 1 <= page_id`. -/
theorem gtSkip_preReads_bound : ∀ (f : DataFile) (t fuel : Nat) (st : ItState)
    (cs : List (Nat × Nat)),
    (∀ pr ∈ cs, pr.2 + 1 ≤ pr.1) →
    ∀ pr ∈ (gtSkip f t fuel st cs).2.2, pr.2 + 1 ≤ pr.1 := by
  intro f t fuel
  induction fuel with
  | zero =>
    intro st cs hcs pr hpr
    simp only [gtSkip] at hpr
    exact hcs pr hpr
  | succ m ih =>
    intro st cs hcs pr hpr
    simp only [gtSkip] at hpr
    split at hpr
    · rename_i hc
      split at hpr
      · rename_i hP
        simp only at hpr
        rcases List.mem_append.mp hpr with h | h
        · exact hcs pr h
        · rcases List.mem_map.mp h with ⟨j, hj, rfl⟩
          have hjlt := fscan_mem_lt st.buffer.preHashes (fun v => decide (t < v)) _ 0 j hj
          omega
      · refine ih _ _ ?_ pr hpr
        intro q hq
        rcases List.mem_append.mp hq with h | h
        · exact hcs q h
        · rcases List.mem_map.mp h with ⟨j, hj, rfl⟩
          have hjlt := fscan_mem_lt st.buffer.preHashes (fun v => decide (t < v)) _ 0 j hj
          omega
    · exact hcs pr hpr

/-- C6 (amended): in every run of getHashOffsets, every `post_hashes[p]`
read satisfies `page_id + p + 1 <= pages_num` — the slot may refer one page
past the end of the file (the counterexample shows `= pages_num` is reached,
so the claimed `<= pages_num - 1` is the exact off-by-one) — and every
`pre_hashes[p]` read satisfies `p + 1 <= page_id`, i.e.
`page_id - p - 1 >= 0`. -/
theorem c6_fence_read_bounds : ∀ f n t off st0 fuel,
    (∀ pr ∈ (getHashOffsets f n t off st0 fuel).postReads,
        pr.1 + pr.2 + 1 ≤ pagesNumOf n) ∧
      (∀ pr ∈ (getHashOffsets f n t off st0 fuel).preReads, pr.2 + 1 ≤ pr.1) := by
  intro f n t off st0 fuel
  unfold getHashOffsets mainSearch
  constructor
  · intro pr hpr
    dsimp only at hpr
    split at hpr
    · exact absurd hpr (by simp)
    · split at hpr
      · split at hpr
        · dsimp only at hpr
          refine ltSkip_postReads_bound f t (pagesNumOf n) fuel _ [] ?_ (by simp) pr hpr
          rw [init_fst_pagesNum]
        · dsimp only at hpr
          refine ltSkip_postReads_bound f t (pagesNumOf n) fuel _ [] ?_ (by simp) pr hpr
          rw [init_fst_pagesNum]
      · split at hpr
        · exact absurd hpr (by simp)
        · split at hpr
          · exact absurd hpr (by simp)
          · exact absurd hpr (by simp)
  · intro pr hpr
    dsimp only at hpr
    split at hpr
    · exact absurd hpr (by simp)
    · split at hpr
      · split at hpr
        · exact absurd hpr (by simp)
        · exact absurd hpr (by simp)
      · split at hpr
        · dsimp only at hpr
          exact gtSkip_preReads_bound f t fuel _ [] (by simp) pr hpr
        · split at hpr
          · dsimp only at hpr
            exact gtSkip_preReads_bound f t fuel _ [] (by simp) pr hpr
          · dsimp only at hpr
            exact gtSkip_preReads_bound f t fuel _ [] (by simp) pr hpr

/-- C6 witness: the amended bound applied to the consulted slot (0, 1) of
the `c6File` probe, whose fence read refers to page 2 = pages_num. -/
theorem c6_fence_read_bounds_witness : (0 : Nat) + 1 + 1 ≤ 2 :=
  (c6_fence_read_bounds c6File c6File.entriesNum 9 c6File.indexOffset
    ItState.fresh 2).1 (0, 1) (by decide)

end Humming
